import Mathlib

/-!
Verification of the static-httpserver core (src/main.go): a shallow
embedding of the lifecycle manager (StartServer / StopServer), the
in-memory log ring buffer (addLog), the upload and create handlers, the
lookup routes, and the directory-listing comparator.  Filesystem and
network effects are modelled by explicit environment records whose fields
hold the outcomes the Go code observes (stat results, I/O errors), so
every handler becomes a pure function of its request plus environment.
-/

/-- Result of an os.Stat call that succeeded: the directory flag of the
inspected node (os.FileInfo.IsDir). -/
structure FileInfo where
  isDir : Bool
deriving DecidableEq

/-- An HTTP response as produced through http.Error / WriteHeader / Write:
status code plus body text. -/
structure HttpResponse where
  status : Nat
  body : String
deriving DecidableEq

/-- List-level test that `pat` is an initial segment of the second list.
Used to embed Go strings.HasPrefix / strings.Contains. -/
def startsWithL : List Char → List Char → Bool
  | [], _ => true
  | _ :: _, [] => false
  | a :: as, b :: bs => a == b && startsWithL as bs

/-- Substring occurrence test on character lists: `pat` occurs somewhere
in the second list. -/
def hasSubL (pat : List Char) : List Char → Bool
  | [] => startsWithL pat []
  | c :: cs => startsWithL pat (c :: cs) || hasSubL pat cs

/-- Go strings.Contains s sub. -/
def goContains (s sub : String) : Bool :=
  hasSubL sub.data s.data

/-- Go strings.TrimPrefix s pre: drops `pre` from the front of `s` when it
is present, otherwise returns `s` unchanged. -/
def trimPref (s pre : String) : String :=
  if startsWithL pre.data s.data then ⟨s.data.drop pre.data.length⟩ else s

/-- The `strings.TrimPrefix(path, "/")` step used by every handler to turn
the request URL path into a root-relative path. -/
def trimLeadingSlash (s : String) : String :=
  trimPref s "/"

/-- Go path/filepath.Base for slash-separated paths (main.go line 183):
empty path gives ".", trailing slashes are stripped, and the component
after the last remaining separator is returned ("/" when the path is all
separators). -/
def baseName (path : String) : String :=
  if path = "" then "."
  else
    let rev := path.data.reverse
    let afterSlashes := rev.dropWhile (fun c => c == '/')
    let comp := (afterSlashes.takeWhile (fun c => c != '/')).reverse
    if comp.isEmpty then "/" else ⟨comp⟩

/-- Splits a character list into slash-separated components; consecutive
separators yield empty components, as Go strings.Split does. -/
def splitSlashL : List Char → List (List Char)
  | [] => [[]]
  | c :: rest =>
    let r := splitSlashL rest
    if c == '/' then [] :: r
    else
      match r with
      | [] => [[c]]
      | h :: t => (c :: h) :: t

/-- One step of the Clean component walk: pushing a component onto the
stack of kept components, where ".." pops a preceding non-".." component,
is dropped at the root, and is kept when nothing can be popped. -/
def cleanStep (rooted : Bool) (stack : List (List Char)) (comp : List Char) : List (List Char) :=
  if comp = ['.', '.'] then
    match stack with
    | [] => if rooted then [] else [comp]
    | top :: rest => if top = ['.', '.'] then comp :: stack else rest
  else comp :: stack

/-- Interleaves the separator between components. -/
def joinSlash : List (List Char) → List Char
  | [] => []
  | [c] => c
  | c :: rest => c ++ '/' :: joinSlash rest

/-- Go path/filepath.Clean for slash-separated paths, via its documented
rules: collapse repeated separators, drop "." components, let ".."
consume a preceding ordinary component, drop ".." at the root, and return
"." for an emptied relative path. -/
def goClean (path : String) : String :=
  if path = "" then "."
  else
    let rooted := match path.data with | '/' :: _ => true | _ => false
    let comps := (splitSlashL path.data).filter (fun c => !c.isEmpty && c != ['.'])
    let parts := (comps.foldl (cleanStep rooted) []).reverse
    if parts.isEmpty then (if rooted then "/" else ".")
    else (if rooted then "/" else "") ++ (⟨joinSlash parts⟩ : String)

/-- Go path/filepath.Join of two elements: empty elements are skipped and
the slash-joined result is passed through Clean. -/
def goJoin (a b : String) : String :=
  if a = "" then (if b = "" then "" else goClean b)
  else goClean (a ++ "/" ++ b)

/-- Accumulates the base-10 value of a digit run; any non-digit character
aborts the parse. -/
def digitsToNat : List Char → Nat → Option Nat
  | [], acc => some acc
  | c :: cs, acc => if c.isDigit then digitsToNat cs (acc * 10 + (c.toNat - 48)) else none

/-- A non-empty all-digit run parsed to its value. -/
def parseDigits (cs : List Char) : Option Nat :=
  match cs with
  | [] => none
  | _ :: _ => digitsToNat cs 0

/-- Largest value of Go int64, the bound enforced by strconv.Atoi on
64-bit targets. -/
def int64Max : Int := 9223372036854775807

/-- Go strconv.Atoi: an optional sign, one or more digits, and an int64
range check; `none` models a non-nil error (syntax or range). -/
def atoi (s : String) : Option Int :=
  match s.data with
  | '+' :: cs => (parseDigits cs).bind (fun n => if (n : Int) ≤ int64Max then some (n : Int) else none)
  | '-' :: cs => (parseDigits cs).bind (fun n => if (n : Int) ≤ int64Max + 1 then some (-(n : Int)) else none)
  | cs => (parseDigits cs).bind (fun n => if (n : Int) ≤ int64Max then some (n : Int) else none)

/-- App.addLog restricted to the in-memory buffer (main.go lines 944-951):
append the message, then keep only the final 100 entries.  The optional
write-through to log/log.txt is an external side effect and not part of
the buffer semantics. -/
def addLog (logs : List String) (message : String) : List String :=
  let l := logs ++ [message]
  if l.length > 100 then l.drop (l.length - 100) else l

/-- The App fields the lifecycle operations touch: `isRunning`, whether a
server handle is set (`a.server != nil`), and the log buffer. -/
structure AppState where
  isRunning : Bool
  server : Bool
  logs : List String
deriving DecidableEq

/-- A generic `{success, message}` map returned by the control-plane
operations. -/
structure CallResult (M : Type) where
  success : Bool
  message : M
deriving DecidableEq

/-- One constructor per distinct message produced by StartServer, in the
order the code can emit them. -/
inductive StartMsg where
  | alreadyRunning
  | emptyDir
  | absError (e : String)
  | dirStatError (e : String)
  | notADirectory
  | emptyIP
  | invalidIP (ip : String)
  | emptyPort
  | portNotNumeric (port : String)
  | portOutOfRange
  | bindError (port : Int) (e : String)
  | started (addr : String)
deriving DecidableEq

/-- The three port-validation failures of StartServer (empty, non-numeric,
out of range). -/
def StartMsg.isPortError : StartMsg → Bool
  | .emptyPort => true
  | .portNotNumeric _ => true
  | .portOutOfRange => true
  | _ => false

/-- Messages produced by StopServer. -/
inductive StopMsg where
  | notRunning
  | closeError (e : String)
  | stopped
deriving DecidableEq

/-- Environment observed by StartServer: the filepath.Abs outcome, the
os.Stat outcome on the absolute directory, whether net.ParseIP accepts
the address, and the net.Listen probe outcome. -/
structure StartEnv where
  absResult : Except String String
  statResult : Except String FileInfo
  ipValid : Bool
  listenErr : Option String

/-- App.StartServer (main.go lines 695-883) as a pure transition: checks
run in source order and each failure returns with the state untouched; on
success the server handle is installed, isRunning is set, and the success
log line is appended. -/
def StartServer (env : StartEnv) (s : AppState) (dir ip port : String) :
    CallResult StartMsg × AppState :=
  if s.isRunning then (⟨false, .alreadyRunning⟩, s)
  else if dir = "" then (⟨false, .emptyDir⟩, s)
  else
    match env.absResult with
    | .error e => (⟨false, .absError e⟩, s)
    | .ok _ =>
      match env.statResult with
      | .error e => (⟨false, .dirStatError e⟩, s)
      | .ok info =>
        if !info.isDir then (⟨false, .notADirectory⟩, s)
        else if ip = "" then (⟨false, .emptyIP⟩, s)
        else if !env.ipValid then (⟨false, .invalidIP ip⟩, s)
        else if port = "" then (⟨false, .emptyPort⟩, s)
        else
          match atoi port with
          | none => (⟨false, .portNotNumeric port⟩, s)
          | some portNum =>
            if portNum < 1 ∨ portNum > 65535 then (⟨false, .portOutOfRange⟩, s)
            else
              match env.listenErr with
              | some e => (⟨false, .bindError portNum e⟩, s)
              | none =>
                let addr := ip ++ ":" ++ toString portNum
                (⟨true, .started addr⟩,
                 ⟨true, true, addLog s.logs "服务器启动成功！"⟩)

/-- Environment observed by StopServer: the `a.server.Close()` outcome. -/
structure StopEnv where
  closeErr : Option String

/-- App.StopServer (main.go lines 886-913) as a pure transition.  Note
the close-error branch returns before `a.isRunning = false` runs, so the
state keeps isRunning true there. -/
def StopServer (env : StopEnv) (s : AppState) : CallResult StopMsg × AppState :=
  if !s.isRunning then (⟨false, .notRunning⟩, s)
  else if s.server then
    match env.closeErr with
    | some e =>
      (⟨false, .closeError e⟩,
       ⟨s.isRunning, s.server, addLog s.logs ("停止服务器时出错: " ++ e)⟩)
    | none =>
      (⟨true, .stopped⟩, ⟨false, s.server, addLog s.logs "服务器已停止"⟩)
  else (⟨true, .stopped⟩, ⟨false, s.server, s.logs⟩)

/-- Per-file observations of handleUpload: the multipart filename from the
file header, and the outcomes of fileHeader.Open, os.Create, and io.Copy. -/
structure FilePart where
  filename : String
  openErr : Option String
  createErr : Option String
  copyErr : Option String
deriving DecidableEq

/-- Request-level observations of handleUpload: the ParseMultipartForm
outcome, the "files" field of the parsed form, and the os.Stat outcome on
the upload directory. -/
structure UploadEnv where
  parseErr : Option String
  files : List FilePart
  statDir : Option FileInfo
deriving DecidableEq

/-- The body of the upload loop (main.go lines 175-201) for one file,
threading (log buffer, created paths): an open failure is logged and the
file skipped; otherwise the destination is the base name joined to the
upload directory; a create failure is logged and skipped; once os.Create
succeeded the path counts as written whether or not the copy succeeds. -/
def processFile (uploadDir : String) (acc : List String × List String) (f : FilePart) :
    List String × List String :=
  match f.openErr with
  | some e => (addLog acc.1 ("Error opening uploaded file: " ++ e), acc.2)
  | none =>
    let dstPath := goJoin uploadDir (baseName f.filename)
    match f.createErr with
    | some e => (addLog acc.1 ("Error creating file " ++ dstPath ++ ": " ++ e), acc.2)
    | none =>
      match f.copyErr with
      | some e => (addLog acc.1 ("Error saving file " ++ dstPath ++ ": " ++ e), acc.2 ++ [dstPath])
      | none => (addLog acc.1 ("File uploaded: " ++ dstPath), acc.2 ++ [dstPath])

/-- App.handleUpload (main.go lines 153-204) returning the response, the
log buffer, and the list of destination paths on which os.Create
succeeded (files present on disk afterwards). -/
def handleUpload (env : UploadEnv) (root urlPath : String) (logs : List String) :
    HttpResponse × List String × List String :=
  match env.parseErr with
  | some e => (⟨400, "Failed to parse form: " ++ e⟩, logs, [])
  | none =>
    if env.files = [] then (⟨400, "No files uploaded"⟩, logs, [])
    else
      let uploadDir := goJoin root (trimLeadingSlash urlPath)
      match env.statDir with
      | none => (⟨400, "Invalid upload directory"⟩, logs, [])
      | some info =>
        if !info.isDir then (⟨400, "Invalid upload directory"⟩, logs, [])
        else
          let res := env.files.foldl (processFile uploadDir) (logs, [])
          (⟨200, ""⟩, res.1, res.2)

/-- The decoded JSON body of a create request: its action and name
fields. -/
structure CreateBody where
  action : String
  name : String
deriving DecidableEq

/-- Environment observed by the create handlers: the os.Stat outcome on
the target directory, the os.Stat outcome on the path to create (some
means the path exists), and the MkdirAll / os.Create outcome. -/
structure CreateEnv where
  statTarget : Option FileInfo
  statNew : Option FileInfo
  createErr : Option String
deriving DecidableEq

/-- The traversal guard both create handlers apply to the name (main.go
lines 232 and 296): reject when it contains a separator or "..". -/
def nameHasTraversal (name : String) : Bool :=
  goContains name "/" || goContains name "\\" || goContains name ".."

/-- App.handleFolderCreation (main.go lines 207-268) returning the
response, the path handed to os.MkdirAll (none when no create was
attempted), and the log buffer. -/
def handleFolderCreation (env : CreateEnv) (body : Except String CreateBody)
    (root urlPath : String) (logs : List String) :
    HttpResponse × Option String × List String :=
  match body with
  | .error e => (⟨400, "Invalid request: " ++ e⟩, none, logs)
  | .ok req =>
    if req.action ≠ "createFolder" then (⟨400, "Invalid action"⟩, none, logs)
    else if req.name = "" then (⟨400, "Folder name is required"⟩, none, logs)
    else if nameHasTraversal req.name then (⟨400, "Invalid folder name"⟩, none, logs)
    else
      let targetDir := goJoin root (trimLeadingSlash urlPath)
      match env.statTarget with
      | none => (⟨400, "Invalid target directory"⟩, none, logs)
      | some info =>
        if !info.isDir then (⟨400, "Invalid target directory"⟩, none, logs)
        else
          let newFolderPath := goJoin targetDir req.name
          match env.statNew with
          | some _ => (⟨409, "Folder already exists"⟩, none, logs)
          | none =>
            match env.createErr with
            | some e => (⟨500, "Failed to create folder: " ++ e⟩, some newFolderPath, logs)
            | none =>
              (⟨200, "Folder created successfully"⟩, some newFolderPath,
               addLog logs ("Folder created: " ++ newFolderPath))

/-- App.handleFileCreation (main.go lines 271-332) returning the
response, the path handed to os.Create (none when no create was
attempted), and the log buffer. -/
def handleFileCreation (env : CreateEnv) (body : Except String CreateBody)
    (root urlPath : String) (logs : List String) :
    HttpResponse × Option String × List String :=
  match body with
  | .error e => (⟨400, "Invalid request: " ++ e⟩, none, logs)
  | .ok req =>
    if req.action ≠ "createFile" then (⟨400, "Invalid action"⟩, none, logs)
    else if req.name = "" then (⟨400, "File name is required"⟩, none, logs)
    else if nameHasTraversal req.name then (⟨400, "Invalid file name"⟩, none, logs)
    else
      let targetDir := goJoin root (trimLeadingSlash urlPath)
      match env.statTarget with
      | none => (⟨400, "Invalid target directory"⟩, none, logs)
      | some info =>
        if !info.isDir then (⟨400, "Invalid target directory"⟩, none, logs)
        else
          let newFilePath := goJoin targetDir req.name
          match env.statNew with
          | some _ => (⟨409, "File already exists"⟩, none, logs)
          | none =>
            match env.createErr with
            | some e => (⟨500, "Failed to create file: " ++ e⟩, some newFilePath, logs)
            | none =>
              (⟨200, "File created successfully"⟩, some newFilePath,
               addLog logs ("File created: " ++ newFilePath))

/-- Outcome of an os.ReadFile call. -/
inductive ReadResult where
  | content (data : String)
  | notExist
  | failed (e : String)
deriving DecidableEq

/-- The two dynamic lookup routes registered in StartServer (main.go
lines 781-849), parametrised by the side-store directory, the artifact
extension, and the route prefix stripped from the URL path.  The result
pairs the response with the path handed to os.ReadFile (none when the
request was rejected before any read).  For ids that pass the guard the
concatenated path equals filepath.Join("api", dir, id+ext) because such
an id is a single ordinary component Clean leaves alone. -/
def lookupHandler (dir ext routePre : String) (readF : String → ReadResult)
    (urlPath : String) : HttpResponse × Option String :=
  let id := trimPref urlPath routePre
  if id = "" then (⟨404, "404 page not found"⟩, none)
  else if goContains id ".." || goContains id "/" || goContains id "\\" then
    (⟨400, "Invalid ID"⟩, none)
  else
    let filePath := dir ++ id ++ ext
    match readF filePath with
    | .content c => (⟨200, c⟩, some filePath)
    | .notExist => (⟨404, "404 page not found"⟩, some filePath)
    | .failed _ => (⟨500, "Internal Server Error"⟩, some filePath)

/-- The /api/get/ route: plain-text artifacts under api/txt. -/
def apiGetRoute (readF : String → ReadResult) (urlPath : String) :
    HttpResponse × Option String :=
  lookupHandler "api/txt/" ".txt" "/api/get/" readF urlPath

/-- The /api/getjson/ route: JSON artifacts under api/json. -/
def apiGetJsonRoute (readF : String → ReadResult) (urlPath : String) :
    HttpResponse × Option String :=
  lookupHandler "api/json/" ".json" "/api/getjson/" readF urlPath

/-- Outcome of the os.Stat call on the resolved request path. -/
inductive StatResult where
  | found (info : FileInfo)
  | notExist
  | failed (e : String)
deriving DecidableEq

/-- Environment observed by the catch-all handler: the stat outcome on
the resolved path and whether an index.html child stats successfully. -/
structure ServeEnv where
  statPath : StatResult
  hasIndex : Bool
deriving DecidableEq

/-- What the catch-all handler decides to do with a request. -/
inductive RequestAction where
  | jsonMutation
  | uploadMutation
  | serveIndex (indexPath : String)
  | listDir (fullPath : String)
  | serveFile (fullPath : String)
  | notFound
  | statFailed (e : String)
deriving DecidableEq

/-- Whether the action dispatches to a mutation handler. -/
def RequestAction.isMutation : RequestAction → Bool
  | .jsonMutation => true
  | .uploadMutation => true
  | _ => false

/-- App.handleFileRequest (main.go lines 106-150): POST requests go to
the JSON or upload mutation handler according to Content-Type; every
other method resolves the path and serves the file, the index.html of a
directory, or a directory listing. -/
def handleFileRequest (env : ServeEnv) (method contentType root urlPath : String) :
    RequestAction :=
  if method = "POST" then
    if goContains contentType "application/json" then .jsonMutation else .uploadMutation
  else
    let fullPath := goJoin root (trimLeadingSlash urlPath)
    match env.statPath with
    | .notExist => .notFound
    | .failed e => .statFailed e
    | .found info =>
      if info.isDir then
        if env.hasIndex then .serveIndex (goJoin fullPath "index.html")
        else .listDir fullPath
      else .serveFile fullPath

/-- A directory entry as the listing renderer sees it. -/
structure DirEntry where
  name : String
  isDir : Bool
  size : Int
deriving DecidableEq

/-- The sort.Slice comparator of serveDirectory (main.go lines 379-387):
directories sort before files, and within a group names compare with the
case-sensitive byte order of Go string comparison (which on UTF-8 data
coincides with code-point order). -/
def entryLess (a b : DirEntry) : Bool :=
  if a.isDir && !b.isDir then true
  else if !a.isDir && b.isDir then false
  else decide (a.name < b.name)

/-- The non-strict order induced by the comparator, under which the
result of sort.Slice is sorted: `a` may precede `b` when `b` need not
strictly precede `a`. -/
def entryLE (a b : DirEntry) : Prop :=
  entryLess b a = false

instance : DecidableRel entryLE :=
  fun a b => inferInstanceAs (Decidable (entryLess b a = false))

/-- The listing order of serveDirectory.  sort.Slice only promises a
permutation that is sorted for the comparator; insertion sort is one such
algorithm, and the uniqueness theorem below shows the result does not
depend on this choice when entry names are distinct. -/
def sortEntries (l : List DirEntry) : List DirEntry :=
  List.insertionSort entryLE l

/-! Helper lemmas about the log ring buffer. -/

theorem addLog_eq_drop (logs : List String) (m : String) :
    addLog logs m = (logs ++ [m]).drop (logs.length + 1 - 100) := by
  unfold addLog
  by_cases h : (logs ++ [m]).length > 100
  · rw [if_pos h]
    have hl : (logs ++ [m]).length = logs.length + 1 := by simp
    rw [hl]
  · rw [if_neg h]
    have hl : (logs ++ [m]).length = logs.length + 1 := by simp
    have h0 : logs.length + 1 - 100 = 0 := by omega
    rw [h0, List.drop_zero]

theorem foldl_addLog_eq (msgs : List String) :
    List.foldl addLog [] msgs = msgs.drop (msgs.length - 100) := by
  induction msgs using List.reverseRecOn with
  | nil => rfl
  | append_singleton ms m ih =>
    rw [List.foldl_append, List.foldl_cons, List.foldl_nil, ih, addLog_eq_drop,
      List.length_drop]
    rcases le_or_lt ms.length 99 with h | h
    · have h1 : ms.length - 100 = 0 := by omega
      have h2 : ms.length - (ms.length - 100) + 1 - 100 = 0 := by omega
      have h3 : (ms ++ [m]).length - 100 = 0 := by simp; omega
      simp [h1, h2, h3]
    · have h2 : ms.length - (ms.length - 100) + 1 - 100 = 1 := by omega
      rw [h2]
      rw [List.drop_append_of_le_length (by rw [List.length_drop]; omega)]
      rw [List.drop_drop]
      have h4 : (ms ++ [m]).length - 100 = ms.length + 1 - 100 := by simp
      rw [h4, List.drop_append_of_le_length (by omega)]
      have h5 : ms.length - 100 + 1 = ms.length + 1 - 100 := by omega
      rw [h5]

/-- C6: the log buffer holds at most 100 entries after every append, and
after any sequence of 150 appends starting from the empty buffer exactly
the 100 most recent messages are retained, in insertion order (the first
50 are evicted). -/
theorem addLog_ring_buffer (msgs : List String) (h : msgs.length = 150) :
    List.foldl addLog [] msgs = msgs.drop 50 ∧
    ∀ n : Nat, (List.foldl addLog [] (msgs.take n)).length ≤ 100 := by
  constructor
  · rw [foldl_addLog_eq, h]
  · intro n
    rw [foldl_addLog_eq, List.length_drop, List.length_take]
    omega

/-- Witness for C6 at a concrete sequence of 150 messages. -/
theorem addLog_ring_buffer_witness :
    (List.replicate 150 "m").length = 150 ∧
    List.foldl addLog [] (List.replicate 150 "m") = (List.replicate 150 "m").drop 50 :=
  ⟨by simp, (addLog_ring_buffer (List.replicate 150 "m") (by simp)).1⟩

/-- Counterexample to C1 as stated: when the listener close fails,
StopServer returns failure and the state is still Running (isRunning has
not been forced to false). -/
theorem stopServer_close_error_cex :
    ((StopServer ⟨some "close failed"⟩ ⟨true, true, []⟩).1.success = false) ∧
    ((StopServer ⟨some "close failed"⟩ ⟨true, true, []⟩).2.isRunning = true) :=
  ⟨rfl, rfl⟩

/-- C1 amended: on a running server with a live handle, a close error is
logged and StopServer returns failure with the state left in Running;
only when the close succeeds does the state transition to Idle. -/
theorem stopServer_close_error_behavior (s : AppState) (e : String)
    (hrun : s.isRunning = true) (hsrv : s.server = true) :
    ((StopServer ⟨some e⟩ s).1.success = false ∧
     (StopServer ⟨some e⟩ s).2.isRunning = true ∧
     (StopServer ⟨some e⟩ s).2.logs = addLog s.logs ("停止服务器时出错: " ++ e)) ∧
    ((StopServer ⟨none⟩ s).1.success = true ∧
     (StopServer ⟨none⟩ s).2.isRunning = false) := by
  unfold StopServer
  rw [hrun, hsrv]
  simp

/-- Witness for the amended C1 at a concrete running state. -/
theorem stopServer_close_error_behavior_witness :
    ((⟨true, true, ["x"]⟩ : AppState).isRunning = true) ∧
    ((StopServer ⟨some "boom"⟩ ⟨true, true, ["x"]⟩).1.success = false ∧
     (StopServer ⟨some "boom"⟩ ⟨true, true, ["x"]⟩).2.isRunning = true ∧
     (StopServer ⟨some "boom"⟩ ⟨true, true, ["x"]⟩).2.logs =
       addLog ["x"] ("停止服务器时出错: " ++ "boom")) :=
  ⟨rfl, (stopServer_close_error_behavior ⟨true, true, ["x"]⟩ "boom" rfl rfl).1⟩

/-- C8: StartServer on a Running state fails with the AlreadyRunning
message and returns the state unchanged, regardless of every other
argument and of every environment outcome (so no validation or
filesystem access can influence the result). -/
theorem startServer_already_running (env : StartEnv) (s : AppState)
    (dir ip port : String) (h : s.isRunning = true) :
    StartServer env s dir ip port = (⟨false, .alreadyRunning⟩, s) := by
  unfold StartServer
  rw [h]
  rfl

/-- Witness for C8 at concrete arguments. -/
theorem startServer_already_running_witness :
    ((⟨true, true, []⟩ : AppState).isRunning = true) ∧
    StartServer ⟨.ok "/d", .ok ⟨true⟩, true, none⟩ ⟨true, true, []⟩ "/d" "127.0.0.1" "8085" =
      (⟨false, .alreadyRunning⟩, ⟨true, true, []⟩) :=
  ⟨rfl, startServer_already_running ⟨.ok "/d", .ok ⟨true⟩, true, none⟩ ⟨true, true, []⟩
    "/d" "127.0.0.1" "8085" rfl⟩

/-- C7: with the server Idle and directory and address validation
passing, any port that fails to parse as an integer (including the empty
string) or parses outside [1,65535] makes StartServer fail with one of
the three invalid-port messages, and the state (hence also the absence of
a listener) is unchanged. -/
theorem startServer_invalid_port (env : StartEnv) (s : AppState)
    (dir ip port : String) (d : String) (info : FileInfo)
    (hidle : s.isRunning = false) (hdir : dir ≠ "")
    (habs : env.absResult = .ok d) (hstat : env.statResult = .ok info)
    (hinfo : info.isDir = true) (hip : ip ≠ "") (hipv : env.ipValid = true)
    (hport : atoi port = none ∨ ∃ n, atoi port = some n ∧ (n < 1 ∨ n > 65535)) :
    (StartServer env s dir ip port).1.success = false ∧
    (StartServer env s dir ip port).1.message.isPortError = true ∧
    (StartServer env s dir ip port).2 = s := by
  unfold StartServer
  rw [hidle, habs, hstat]
  by_cases hpe : port = ""
  · simp [hdir, hip, hpe, hinfo, hipv, StartMsg.isPortError]
  · rcases hport with hnone | ⟨n, hsome, hrange⟩
    · simp [hdir, hip, hpe, hinfo, hipv, hnone, StartMsg.isPortError]
    · simp [hdir, hip, hpe, hinfo, hipv, hsome, hrange, StartMsg.isPortError]

/-- Witness for C7 at a non-numeric port. -/
theorem startServer_invalid_port_witness :
    (atoi "abc" = none) ∧
    ((StartServer ⟨.ok "/d", .ok ⟨true⟩, true, none⟩ ⟨false, false, []⟩ "/d" "127.0.0.1" "abc").1.success = false ∧
     (StartServer ⟨.ok "/d", .ok ⟨true⟩, true, none⟩ ⟨false, false, []⟩ "/d" "127.0.0.1" "abc").1.message.isPortError = true ∧
     (StartServer ⟨.ok "/d", .ok ⟨true⟩, true, none⟩ ⟨false, false, []⟩ "/d" "127.0.0.1" "abc").2 = ⟨false, false, []⟩) :=
  ⟨rfl, startServer_invalid_port ⟨.ok "/d", .ok ⟨true⟩, true, none⟩ ⟨false, false, []⟩
    "/d" "127.0.0.1" "abc" "/d" ⟨true⟩ rfl (by decide) rfl rfl rfl (by decide) rfl
    (Or.inl rfl)⟩

/-! Helper lemma: the upload loop only ever appends to the list of
written files, so its final value is a filterMap of the request files. -/

theorem foldl_processFile_snd (dir : String) (fs : List FilePart) :
    ∀ (lgs created : List String),
      (fs.foldl (processFile dir) (lgs, created)).2 =
        created ++ fs.filterMap (fun f =>
          if f.openErr = none ∧ f.createErr = none then
            some (goJoin dir (baseName f.filename))
          else none) := by
  induction fs with
  | nil => intro lgs created; simp
  | cons f fs ih =>
    intro lgs created
    rw [List.foldl_cons]
    rcases ho : f.openErr with _ | e
    · rcases hc : f.createErr with _ | e
      · rcases hcp : f.copyErr with _ | e
        · simp [processFile, ho, hc, hcp, ih, List.filterMap_cons]
        · simp [processFile, ho, hc, hcp, ih, List.filterMap_cons]
      · simp [processFile, ho, hc, ih, List.filterMap_cons]
    · simp [processFile, ho, ih, List.filterMap_cons]

/-- Counterexample to C2 as stated: a multipart form that parses
successfully but carries zero files, aimed at a valid existing target
directory, is answered with 400 "No files uploaded", not 200. -/
theorem handleUpload_empty_files_cex :
    (handleUpload ⟨none, [], some ⟨true⟩⟩ "/srv/site" "/" []).1.status = 400 ∧
    ¬ (handleUpload ⟨none, [], some ⟨true⟩⟩ "/srv/site" "/" []).1.status = 200 := by
  exact ⟨rfl, by decide⟩

/-- C2 amended: for every upload request whose multipart form parses
successfully and which carries at least one file, against a valid
existing target directory, the handler answers 200 whatever the per-file
open/create/copy outcomes are; the files written are exactly those whose
open and create succeeded, so per-file failures are skipped and files
already written are never rolled back. -/
theorem handleUpload_partial_success (env : UploadEnv) (root urlPath : String)
    (logs : List String) (info : FileInfo)
    (hparse : env.parseErr = none) (hfiles : env.files ≠ [])
    (hstat : env.statDir = some info) (hdir : info.isDir = true) :
    (handleUpload env root urlPath logs).1.status = 200 ∧
    (handleUpload env root urlPath logs).2.2 =
      env.files.filterMap (fun f =>
        if f.openErr = none ∧ f.createErr = none then
          some (goJoin (goJoin root (trimLeadingSlash urlPath)) (baseName f.filename))
        else none) := by
  unfold handleUpload
  rw [hparse, hstat]
  simp only [if_neg hfiles, hdir, Bool.not_true, Bool.false_eq_true, if_false]
  refine ⟨by trivial, ?_⟩
  simpa using foldl_processFile_snd (goJoin root (trimLeadingSlash urlPath)) env.files logs []

/-- Witness for the amended C2: two files, the first failing to open and
the second failing to copy, still produce a 200 response, and the second
file remains written. -/
theorem handleUpload_partial_success_witness :
    (([⟨"a.txt", some "io", none, none⟩, ⟨"b.txt", none, none, some "disk full"⟩] : List FilePart) ≠ []) ∧
    ((handleUpload ⟨none, [⟨"a.txt", some "io", none, none⟩, ⟨"b.txt", none, none, some "disk full"⟩], some ⟨true⟩⟩ "/srv/site" "/" []).1.status = 200 ∧
     (handleUpload ⟨none, [⟨"a.txt", some "io", none, none⟩, ⟨"b.txt", none, none, some "disk full"⟩], some ⟨true⟩⟩ "/srv/site" "/" []).2.2 =
       ([⟨"a.txt", some "io", none, none⟩, ⟨"b.txt", none, none, some "disk full"⟩] : List FilePart).filterMap (fun f =>
         if f.openErr = none ∧ f.createErr = none then
           some (goJoin (goJoin "/srv/site" (trimLeadingSlash "/")) (baseName f.filename))
         else none)) :=
  ⟨by decide,
   handleUpload_partial_success
     ⟨none, [⟨"a.txt", some "io", none, none⟩, ⟨"b.txt", none, none, some "disk full"⟩], some ⟨true⟩⟩
     "/srv/site" "/" [] ⟨true⟩ rfl (by decide) rfl rfl⟩

/-! Helper lemma: the head of a dropWhile result falsifies the
predicate. -/

theorem dropWhile_head_false {p : Char → Bool} {l : List Char} :
    ∀ {x : Char} {xs : List Char}, l.dropWhile p = x :: xs → p x = false := by
  induction l with
  | nil => intro x xs h; simp [List.dropWhile] at h
  | cons a as ih =>
    intro x xs h
    rw [List.dropWhile_cons] at h
    by_cases hp : p a = true
    · rw [if_pos hp] at h
      exact ih h
    · rw [if_neg hp] at h
      cases h
      exact Bool.eq_false_iff.mpr hp

/-- C4: for every filename with at least one non-separator character,
the base name computed before joining contains no separator (all
directory components are stripped); and concretely, uploading a file
named "../../evil.txt" into target directory /srv/site writes exactly
/srv/site/evil.txt — inside the target directory, not outside it. -/
theorem upload_basename_strips_directories :
    (∀ f : String, (∃ c ∈ f.data, c ≠ '/') → (baseName f).data.contains '/' = false) ∧
    (handleUpload ⟨none, [⟨"../../evil.txt", none, none, none⟩], some ⟨true⟩⟩ "/srv/site" "/" []).2.2 = ["/srv/site/evil.txt"] := by
  constructor
  · intro f hf
    obtain ⟨c, hc, hcs⟩ := hf
    have hfe : f ≠ "" := by
      intro h
      subst h
      simp at hc
    unfold baseName
    rw [if_neg hfe]
    simp only []
    have hne : f.data.reverse.dropWhile (fun c => c == '/') ≠ [] := by
      rw [Ne, List.dropWhile_eq_nil_iff]
      push_neg
      exact ⟨c, List.mem_reverse.mpr hc, by simp [hcs]⟩
    obtain ⟨x, xs, hx⟩ := List.exists_cons_of_ne_nil hne
    have hxns : (x != '/') = true := by
      have := dropWhile_head_false hx
      simp at this
      simp [this]
    have hcomp : (f.data.reverse.dropWhile (fun c => c == '/')).takeWhile (fun c => c != '/') =
        x :: xs.takeWhile (fun c => c != '/') := by
      rw [hx, List.takeWhile_cons, if_pos hxns]
    rw [hcomp]
    rw [if_neg (by simp)]
    have hmem : ('/' : Char) ∉ (x :: xs.takeWhile (fun c => c != '/')).reverse := by
      intro hm
      rw [List.mem_reverse] at hm
      rcases List.mem_cons.mp hm with h | h
      · rw [h] at hxns
        simp at hxns
      · have := List.mem_takeWhile_imp h
        simp at this
    show ((x :: xs.takeWhile (fun c => c != '/')).reverse).contains '/' = false
    simpa using hmem
  · rfl

/-- Witness for C4 at a concrete traversal-laden filename. -/
theorem upload_basename_strips_directories_witness :
    (∃ c ∈ ("../../evil.txt" : String).data, c ≠ '/') ∧
    (baseName "../../evil.txt").data.contains '/' = false :=
  ⟨by decide, upload_basename_strips_directories.1 "../../evil.txt" (by decide)⟩

/-! Helper lemmas for the route handlers. -/

theorem startsWithL_append (p q : List Char) : startsWithL p (p ++ q) = true := by
  induction p with
  | nil => rfl
  | cons a as ih => simp [startsWithL, ih]

theorem trimPref_append (pre s : String) : trimPref (pre ++ s) pre = s := by
  unfold trimPref
  have hd : (pre ++ s).data = pre.data ++ s.data := rfl
  rw [hd, startsWithL_append, if_pos rfl, List.drop_left]

/-- C3: any untrusted segment containing "..", "/", or "\" — whether the
name of a createFolder/createFile request or the id of a lookup request —
is answered with status 400, the create handlers pass no path to
MkdirAll/Create (no filesystem entry is created), and the lookup routes
pass no path to ReadFile (no artifact file is read). -/
theorem traversal_segment_rejected (name id : String) (env : CreateEnv)
    (root urlPath : String) (logs : List String) (readF : String → ReadResult)
    (hname : goContains name "/" = true ∨ goContains name "\\" = true ∨ goContains name ".." = true)
    (hid : goContains id "/" = true ∨ goContains id "\\" = true ∨ goContains id ".." = true) :
    ((handleFolderCreation env (.ok ⟨"createFolder", name⟩) root urlPath logs).1.status = 400 ∧
     (handleFolderCreation env (.ok ⟨"createFolder", name⟩) root urlPath logs).2.1 = none) ∧
    ((handleFileCreation env (.ok ⟨"createFile", name⟩) root urlPath logs).1.status = 400 ∧
     (handleFileCreation env (.ok ⟨"createFile", name⟩) root urlPath logs).2.1 = none) ∧
    ((apiGetRoute readF ("/api/get/" ++ id)).1.status = 400 ∧
     (apiGetRoute readF ("/api/get/" ++ id)).2 = none) ∧
    ((apiGetJsonRoute readF ("/api/getjson/" ++ id)).1.status = 400 ∧
     (apiGetJsonRoute readF ("/api/getjson/" ++ id)).2 = none) := by
  have hname' : nameHasTraversal name = true := by
    unfold nameHasTraversal
    rcases hname with h | h | h <;> simp [h]
  have hnne : name ≠ "" := by
    intro hn
    subst hn
    rcases hname with h | h | h <;> exact absurd h (by decide)
  have hidne : id ≠ "" := by
    intro hn
    subst hn
    rcases hid with h | h | h <;> exact absurd h (by decide)
  have hidg : (goContains id ".." || goContains id "/" || goContains id "\\") = true := by
    rcases hid with h | h | h <;> simp [h]
  refine ⟨?_, ?_, ?_, ?_⟩
  · constructor <;> simp [handleFolderCreation, hname', hnne]
  · constructor <;> simp [handleFileCreation, hname', hnne]
  · constructor <;> simp [apiGetRoute, lookupHandler, trimPref_append, hidne, hidg]
  · constructor <;> simp [apiGetJsonRoute, lookupHandler, trimPref_append, hidne, hidg]

/-- Witness for C3: a name containing a slash and an id containing a
backslash are both rejected with 400 and no create is attempted. -/
theorem traversal_segment_rejected_witness :
    (goContains "../x" "/" = true) ∧ (goContains "a\\b" "\\" = true) ∧
    ((handleFolderCreation ⟨some ⟨true⟩, none, none⟩ (.ok ⟨"createFolder", "../x"⟩) "/r" "/" []).1.status = 400 ∧
     (handleFolderCreation ⟨some ⟨true⟩, none, none⟩ (.ok ⟨"createFolder", "../x"⟩) "/r" "/" []).2.1 = none) :=
  ⟨by decide, by decide,
   (traversal_segment_rejected "../x" "a\\b" ⟨some ⟨true⟩, none, none⟩ "/r" "/" []
     (fun _ => .notExist) (Or.inl (by decide)) (Or.inr (Or.inl (by decide)))).1⟩

/-- C9: a createFolder/createFile request with a valid name whose target
path already exists is answered 409 Conflict, no create call is made, and
the log buffer is untouched. -/
theorem create_existing_conflict (name : String) (env : CreateEnv)
    (root urlPath : String) (logs : List String) (tinfo ninfo : FileInfo)
    (hvalid : nameHasTraversal name = false) (hne : name ≠ "")
    (htarget : env.statTarget = some tinfo) (htdir : tinfo.isDir = true)
    (hexists : env.statNew = some ninfo) :
    ((handleFolderCreation env (.ok ⟨"createFolder", name⟩) root urlPath logs).1 =
       ⟨409, "Folder already exists"⟩ ∧
     (handleFolderCreation env (.ok ⟨"createFolder", name⟩) root urlPath logs).2.1 = none ∧
     (handleFolderCreation env (.ok ⟨"createFolder", name⟩) root urlPath logs).2.2 = logs) ∧
    ((handleFileCreation env (.ok ⟨"createFile", name⟩) root urlPath logs).1 =
       ⟨409, "File already exists"⟩ ∧
     (handleFileCreation env (.ok ⟨"createFile", name⟩) root urlPath logs).2.1 = none ∧
     (handleFileCreation env (.ok ⟨"createFile", name⟩) root urlPath logs).2.2 = logs) := by
  constructor
  · refine ⟨?_, ?_, ?_⟩ <;>
      simp [handleFolderCreation, hvalid, hne, htarget, htdir, hexists]
  · refine ⟨?_, ?_, ?_⟩ <;>
      simp [handleFileCreation, hvalid, hne, htarget, htdir, hexists]

/-- Witness for C9 at a concrete request: creating "docs" where "docs"
already exists. -/
theorem create_existing_conflict_witness :
    (nameHasTraversal "docs" = false) ∧
    ((handleFolderCreation ⟨some ⟨true⟩, some ⟨true⟩, none⟩ (.ok ⟨"createFolder", "docs"⟩) "/r" "/" []).1 =
       ⟨409, "Folder already exists"⟩ ∧
     (handleFolderCreation ⟨some ⟨true⟩, some ⟨true⟩, none⟩ (.ok ⟨"createFolder", "docs"⟩) "/r" "/" []).2.1 = none ∧
     (handleFolderCreation ⟨some ⟨true⟩, some ⟨true⟩, none⟩ (.ok ⟨"createFolder", "docs"⟩) "/r" "/" []).2.2 = []) :=
  ⟨by decide,
   (create_existing_conflict "docs" ⟨some ⟨true⟩, some ⟨true⟩, none⟩ "/r" "/" [] ⟨true⟩ ⟨true⟩
     (by decide) (by decide) rfl rfl rfl).1⟩

/-- C10: on the catch-all path every method other than POST — PUT,
DELETE, HEAD, anything — is dispatched exactly as GET is (file, index, or
listing), and never to a mutation handler; only the string "POST" reaches
the mutation handlers. -/
theorem non_post_served_like_get (env : ServeEnv) (method contentType root urlPath : String)
    (h : method ≠ "POST") :
    handleFileRequest env method contentType root urlPath =
      handleFileRequest env "GET" contentType root urlPath ∧
    (handleFileRequest env method contentType root urlPath).isMutation = false := by
  unfold handleFileRequest
  rw [if_neg h, if_neg (by decide : ¬ ("GET" = "POST"))]
  refine ⟨rfl, ?_⟩
  cases env.statPath with
  | notExist => rfl
  | failed e => rfl
  | found info =>
    by_cases hd : info.isDir = true
    · by_cases hi : env.hasIndex = true
      · simp [hd, hi, RequestAction.isMutation]
      · simp [hd, hi, RequestAction.isMutation]
    · simp [hd, RequestAction.isMutation]

/-- Witness for C10 with method DELETE on a directory without index. -/
theorem non_post_served_like_get_witness :
    (("DELETE" : String) ≠ "POST") ∧
    (handleFileRequest ⟨.found ⟨true⟩, false⟩ "DELETE" "" "/r" "/docs" =
       handleFileRequest ⟨.found ⟨true⟩, false⟩ "GET" "" "/r" "/docs" ∧
     (handleFileRequest ⟨.found ⟨true⟩, false⟩ "DELETE" "" "/r" "/docs").isMutation = false) :=
  ⟨by decide,
   ⟨(non_post_served_like_get ⟨.found ⟨true⟩, false⟩ "DELETE" "" "/r" "/docs" (by decide)).1,
    (non_post_served_like_get ⟨.found ⟨true⟩, false⟩ "DELETE" "" "/r" "/docs" (by decide)).2⟩⟩

/-! The comparator order: characterisation, totality, transitivity, and
uniqueness of sorted permutations with distinct names. -/

theorem entryLE_iff (a b : DirEntry) :
    entryLE a b ↔ (a.isDir = true ∧ b.isDir = false) ∨ (a.isDir = b.isDir ∧ a.name ≤ b.name) := by
  unfold entryLE entryLess
  cases ha : a.isDir <;> cases hb : b.isDir <;>
    simp [ha, hb, not_lt]

instance : IsTotal DirEntry entryLE where
  total a b := by
    rw [entryLE_iff, entryLE_iff]
    cases ha : a.isDir <;> cases hb : b.isDir <;> simp [ha, hb] <;>
      exact le_total _ _

instance : IsTrans DirEntry entryLE where
  trans a b c hab hbc := by
    rw [entryLE_iff] at hab hbc ⊢
    rcases hab with ⟨ha, hb⟩ | ⟨hab, hnab⟩ <;> rcases hbc with ⟨hb2, hc⟩ | ⟨hbc2, hnbc⟩
    · rw [hb] at hb2
      cases hb2
    · rw [hbc2] at hb
      exact Or.inl ⟨ha, hb⟩
    · rw [hab] at *
      exact Or.inl ⟨hb2, hc⟩
    · exact Or.inr ⟨hab.trans hbc2, le_trans hnab hnbc⟩

theorem entryLE_antisymm_name {a b : DirEntry} (h₁ : entryLE a b) (h₂ : entryLE b a) :
    a.name = b.name := by
  rw [entryLE_iff] at h₁ h₂
  rcases h₁ with ⟨ha, hb⟩ | ⟨hd, hn⟩
  · rcases h₂ with ⟨hb2, ha2⟩ | ⟨hd2, hn2⟩
    · rw [ha] at ha2
      cases ha2
    · rw [ha, hb] at hd2
      cases hd2
  · rcases h₂ with ⟨hb2, ha2⟩ | ⟨hd2, hn2⟩
    · rw [hd, hb2] at ha2
      cases ha2
    · exact le_antisymm hn hn2

theorem sorted_nodup_names_unique :
    ∀ {l₁ l₂ : List DirEntry}, List.Perm l₁ l₂ → l₁.Sorted entryLE → l₂.Sorted entryLE →
      (l₁.map DirEntry.name).Nodup → l₁ = l₂ := by
  intro l₁
  induction l₁ with
  | nil =>
    intro l₂ hp _ _ _
    exact hp.nil_eq
  | cons a t ih =>
    intro l₂ hp hs₁ hs₂ hn
    have ha : a ∈ l₂ := hp.subset (List.mem_cons_self a t)
    obtain ⟨u, v, rfl⟩ := List.append_of_mem ha
    rw [List.map_cons, List.nodup_cons] at hn
    have hu : u = [] := by
      cases u with
      | nil => rfl
      | cons x u2 =>
        exfalso
        by_cases hxa : x = a
        · subst hxa
          have hp2 : List.Perm t (u2 ++ x :: v) := (List.perm_cons x).mp (by simpa using hp)
          have hxt : x ∈ t := hp2.mem_iff.mpr (by simp)
          exact hn.1 (List.mem_map_of_mem DirEntry.name hxt)
        · have hxt : x ∈ t := by
            have hx : x ∈ a :: t := hp.mem_iff.mpr (by simp)
            rcases List.mem_cons.mp hx with h | h
            · exact absurd h hxa
            · exact h
          have h₁ : entryLE a x := (List.sorted_cons.mp hs₁).1 x hxt
          have hs₂x : List.Sorted entryLE (x :: (u2 ++ a :: v)) := by
            rw [List.cons_append] at hs₂
            exact hs₂
          have h₂ : entryLE x a :=
            (List.sorted_cons.mp hs₂x).1 a (by simp)
          have hname : x.name = a.name := entryLE_antisymm_name h₂ h₁
          exact hn.1 (hname ▸ List.mem_map_of_mem DirEntry.name hxt)
    subst hu
    simp only [List.nil_append] at hp hs₂ ⊢
    have hp2 : List.Perm t v := (List.perm_cons a).mp hp
    rw [ih hp2 (List.sorted_cons.mp hs₁).2 (List.sorted_cons.mp hs₂).2 hn.2]

/-- C5: with entry names distinct (as they are within one directory), the
listing order is fully determined by the entry set — two directories
differing only in enumeration order sort identically — and the sorted
listing places all directories before all files with names ascending in
case-sensitive byte order within each group. -/
theorem serveDirectory_sorted_deterministic (l₁ l₂ : List DirEntry)
    (hp : List.Perm l₁ l₂) (hn : (l₁.map DirEntry.name).Nodup) :
    sortEntries l₁ = sortEntries l₂ ∧
    (sortEntries l₁).Pairwise
      (fun a b => (a.isDir = true ∧ b.isDir = false) ∨ (a.isDir = b.isDir ∧ a.name ≤ b.name)) := by
  have hperm : List.Perm (sortEntries l₁) (sortEntries l₂) :=
    ((List.perm_insertionSort entryLE l₁).trans hp).trans
      (List.perm_insertionSort entryLE l₂).symm
  have hs₁ : (sortEntries l₁).Sorted entryLE := List.sorted_insertionSort entryLE l₁
  have hs₂ : (sortEntries l₂).Sorted entryLE := List.sorted_insertionSort entryLE l₂
  have hn₁ : ((sortEntries l₁).map DirEntry.name).Nodup :=
    (((List.perm_insertionSort entryLE l₁).map DirEntry.name).nodup_iff).mpr hn
  refine ⟨sorted_nodup_names_unique hperm hs₁ hs₂ hn₁, ?_⟩
  exact hs₁.imp (fun h => (entryLE_iff _ _).mp h)

/-- Witness for C5: the same two entries in either enumeration order sort
to the same listing. -/
theorem serveDirectory_sorted_deterministic_witness :
    List.Perm [(⟨"b", false, 3⟩ : DirEntry), ⟨"a", true, 0⟩] [⟨"a", true, 0⟩, ⟨"b", false, 3⟩] ∧
    sortEntries [⟨"b", false, 3⟩, ⟨"a", true, 0⟩] = sortEntries [⟨"a", true, 0⟩, ⟨"b", false, 3⟩] :=
  ⟨List.Perm.swap _ _ _,
   (serveDirectory_sorted_deterministic [⟨"b", false, 3⟩, ⟨"a", true, 0⟩]
     [⟨"a", true, 0⟩, ⟨"b", false, 3⟩] (List.Perm.swap _ _ _) (by decide)).1⟩
